import Mathlib

/-!
# libopensc/module.c : the dynamic linking loader

A shallow embedding of the three build variants of `module.c`
(`HAVE_DLFCN_H`, `_WIN32`, and the fallback stub) together with a small
model of the host loader they call into.

Conventions of the embedding

* a C string is the list of its bytes, the terminating NUL excluded;
* a pointer-sized value (`void *`) is a natural number, `0` being `NULL`;
* a `const char *` argument is an `Option CStr`, `none` being `NULL`;
* an out-parameter (`*mod_handle`, `*sym_address`) is reported as the value
  stored through it, `none` when the function stored nothing;
* the host state is threaded explicitly, and every host call is recorded,
  in order, in the `calls` field of the outcome.
-/

namespace OpenSC

/-! ## Basic data -/

/-- Bytes of a C string, without the terminating NUL. -/
abbrev CStr := List Nat

/-- A C string holds no NUL byte before its terminator. -/
def IsCStr (s : CStr) : Prop := ∀ b ∈ s, b ≠ 0

instance (s : CStr) : Decidable (IsCStr s) := by
  unfold IsCStr; infer_instance

/-- A `void *` value; `0` is `NULL`. -/
abbrev Ptr := Nat

/-- Modelled from the spec: `SC_SUCCESS` and `SC_ERROR_UNKNOWN` are defined in
a header that is not among the sources. Only their being distinct matters here,
so the two codes are kept symbolic. -/
inductive RetCode where
  | SC_SUCCESS
  | SC_ERROR_UNKNOWN
  deriving DecidableEq, Repr

export RetCode (SC_SUCCESS SC_ERROR_UNKNOWN)

/-- The part of `struct sc_context` that `module.c` reads. -/
structure sc_context where
  debug : Bool
  deriving DecidableEq, Repr

/-- One call of `debug(ctx, fmt, ...)`: the format string and the `%s`
argument when there is one. -/
structure Diag where
  fmt : String
  arg : Option String
  deriving DecidableEq, Repr

/-- The calls the three variants make into the host loader. -/
inductive HostCall where
  | dlopen (filename : CStr)
  | dlclose (handle : Ptr)
  | dlsym (handle : Ptr) (name : CStr)
  | dlerror
  | LoadLibrary (filename : CStr)
  | FreeLibrary (handle : Ptr)
  | GetProcAddress (handle : Ptr) (name : CStr)
  deriving DecidableEq, Repr

/-- Ways a call can fail to return at all. -/
inductive Fault where
  /-- The check `assert(ctx != NULL)` failed. -/
  | assertion_failed
  /-- The host was handed a buffer without a terminating NUL. -/
  | unterminated_name
  deriving DecidableEq, Repr

/-- What a returning call did: return code, value stored through the
out-parameter (if any), host state afterwards, diagnostics emitted, host calls
made. -/
structure Outcome (σ : Type) where
  rc : RetCode
  out : Option Ptr
  host : σ
  log : List Diag
  calls : List HostCall

/-! ## The host loader -/

/-- Symbol table of one library: exported name to address. An exported symbol
may have the value `0`. -/
abbrev SymTab := List (CStr × Ptr)

/-- A fresh non-null handle for a table of mapped libraries. -/
def freshHandle (loaded : List (Ptr × SymTab)) : Ptr :=
  (loaded.map Prod.fst).foldr max 0 + 1

/-- POSIX host, which lies outside the repository: the files the loader can
map, the symbol table of each mapped library (by handle), and the pending-error
slot. Every call of `dlopen`, `dlsym` or `dlclose` discards the error of an
earlier call: after a successful call no error is pending, after a failed one
its own error is. The call `dlerror` reads the slot and clears it. -/
structure Host where
  files : List (CStr × SymTab)
  loaded : List (Ptr × SymTab)
  err : Option String

namespace Host

/-- Host call `dlopen(filename, RTLD_LAZY)`: maps the library and returns a new
handle with no error pending, or returns `NULL` and fills the error slot. -/
def dlopen (s : Host) (filename : CStr) : Ptr × Host :=
  match s.files.lookup filename with
  | some lib =>
    (freshHandle s.loaded,
      Host.mk s.files ((freshHandle s.loaded, lib) :: s.loaded) none)
  | none => (0, Host.mk s.files s.loaded (some "cannot open shared object file"))

/-- Host call `dlsym(handle, name)`: the address of the symbol with no error
pending, or `NULL` with the error slot filled when the symbol is not exported.
For a handle that names no mapped library the loader's behaviour is not
defined; the model answers with `NULL` and an error. -/
def dlsym (s : Host) (handle : Ptr) (name : CStr) : Ptr × Host :=
  match s.loaded.lookup handle with
  | none => (0, Host.mk s.files s.loaded (some "invalid handle"))
  | some lib =>
    match lib.lookup name with
    | some a => (a, Host.mk s.files s.loaded none)
    | none => (0, Host.mk s.files s.loaded (some "undefined symbol"))

/-- Host call `dlclose(handle)`: unmaps the library and returns `0` with no
error pending. For a handle that names no mapped library the loader's behaviour
is not defined; the model answers with a non-zero result and an error. -/
def dlclose (s : Host) (handle : Ptr) : Int × Host :=
  match s.loaded.lookup handle with
  | some _ => (0, Host.mk s.files (s.loaded.filter (fun p => p.1 != handle)) none)
  | none => (-1, Host.mk s.files s.loaded (some "invalid handle"))

/-- Host call `dlerror()`: returns the pending error, if any, and clears the slot. -/
def dlerror (s : Host) : Option String × Host :=
  (s.err, Host.mk s.files s.loaded none)

/-- The host resolves `name` for `handle` to this address. -/
def resolve (s : Host) (handle : Ptr) (name : CStr) : Option Ptr :=
  match s.loaded.lookup handle with
  | none => none
  | some lib => lib.lookup name

/-- An open handle: non-null and naming a mapped library. -/
def IsOpen (s : Host) (handle : Ptr) : Prop :=
  handle ≠ 0 ∧ (s.loaded.lookup handle).isSome = true

instance (s : Host) (handle : Ptr) : Decidable (s.IsOpen handle) := by
  unfold IsOpen; infer_instance

end Host

/-- Windows host, which lies outside the repository: the files the loader can
map and the symbol table of each mapped module (by handle). The last-error code
is left out, `module.c` never reads it. -/
structure WinHost where
  files : List (CStr × SymTab)
  loaded : List (Ptr × SymTab)

namespace WinHost

/-- Host call `LoadLibrary(filename)`: a new module handle, or `NULL`. -/
def LoadLibrary (s : WinHost) (filename : CStr) : Ptr × WinHost :=
  match s.files.lookup filename with
  | some lib =>
    (freshHandle s.loaded, WinHost.mk s.files ((freshHandle s.loaded, lib) :: s.loaded))
  | none => (0, s)

/-- Host call `FreeLibrary(handle)`: `TRUE` when the module was unmapped, `FALSE` when
the handle names no mapped module. -/
def FreeLibrary (s : WinHost) (handle : Ptr) : Bool × WinHost :=
  match s.loaded.lookup handle with
  | some _ => (true, WinHost.mk s.files (s.loaded.filter (fun p => p.1 != handle)))
  | none => (false, s)

/-- Host call `GetProcAddress(handle, name)`: the address of the export, or `NULL`. -/
def GetProcAddress (s : WinHost) (handle : Ptr) (name : CStr) : Ptr :=
  match s.loaded.lookup handle with
  | none => 0
  | some lib =>
    match lib.lookup name with
    | some a => a
    | none => 0

/-- The host resolves `name` for `handle` to this address. -/
def resolve (s : WinHost) (handle : Ptr) (name : CStr) : Option Ptr :=
  match s.loaded.lookup handle with
  | none => none
  | some lib => lib.lookup name

/-- An open handle: non-null and naming a mapped module. -/
def IsOpen (s : WinHost) (handle : Ptr) : Prop :=
  handle ≠ 0 ∧ (s.loaded.lookup handle).isSome = true

instance (s : WinHost) (handle : Ptr) : Decidable (s.IsOpen handle) := by
  unfold IsOpen; infer_instance

end WinHost

/-! ## String helpers from the C library -/

/-- Library call `strncpy(dst, src, n)`: the `n` bytes written to `dst`. Bytes of `src` are
copied until its NUL or until `n` bytes are written; the rest is NUL padding.
When `src` has `n` bytes or more, no NUL is written. -/
def strncpy : CStr → Nat → List Nat
  | _, 0 => []
  | [], n + 1 => 0 :: strncpy [] n
  | c :: cs, n + 1 => if c = 0 then 0 :: strncpy [] n else c :: strncpy cs n

/-- The C string a callee reads from a buffer: the bytes before the first NUL,
or nothing when the buffer holds no NUL (the read runs past its end). -/
def bufString : List Nat → Option CStr
  | [] => none
  | b :: bs => if b = 0 then some [] else (bufString bs).map (fun s => b :: s)

/-- Content of `char name[256]` after
`name[0] = '_'; strncpy(&name[1], sym_name, sizeof(name) - 1);`. -/
def decoratedBuffer (sym_name : CStr) : List Nat :=
  0x5f :: strncpy sym_name (256 - 1)

/-! ## Variant `HAVE_DLFCN_H` -/

namespace Posix

/-- Function `sc_module_open`, module.c lines 29-48. -/
def sc_module_open (ctx : Option sc_context) (host : Host) (filename : Option CStr) :
    Except Fault (Outcome Host) :=
  match ctx with
  | none => .error .assertion_failed
  | some c =>
    match filename with
    | none => .ok ⟨SC_ERROR_UNKNOWN, none, host, [], []⟩
    | some f =>
      let r := host.dlopen f
      let e := r.2.dlerror
      match e.1 with
      | some error =>
        .ok ⟨SC_ERROR_UNKNOWN, none, e.2,
          if c.debug then [⟨"sc_module_open: %s\n", some error⟩] else [],
          [.dlopen f, .dlerror]⟩
      | none => .ok ⟨SC_SUCCESS, some r.1, e.2, [], [.dlopen f, .dlerror]⟩

/-- Function `sc_module_close`, module.c lines 50-67. -/
def sc_module_close (ctx : Option sc_context) (host : Host) (mod_handle : Ptr) :
    Except Fault (Outcome Host) :=
  match ctx with
  | none => .error .assertion_failed
  | some c =>
    if mod_handle = 0 then .ok ⟨SC_ERROR_UNKNOWN, none, host, [], []⟩
    else
      let r := host.dlclose mod_handle
      let e := r.2.dlerror
      match e.1 with
      | some error =>
        .ok ⟨SC_ERROR_UNKNOWN, none, e.2,
          if c.debug then [⟨"sc_module_close: %s\n", some error⟩] else [],
          [.dlclose mod_handle, .dlerror]⟩
      | none => .ok ⟨SC_SUCCESS, none, e.2, [], [.dlclose mod_handle, .dlerror]⟩

/-- The one or two `dlsym` calls of `sc_module_get_address`, lines 84-88:
address obtained, host state afterwards, calls made. -/
def lookupBoth (host : Host) (mod_handle : Ptr) (name sym_name : CStr) :
    Ptr × Host × List HostCall :=
  let r := host.dlsym mod_handle name
  if r.1 = 0 then
    let r2 := r.2.dlsym mod_handle sym_name
    (r2.1, r2.2, [.dlsym mod_handle name, .dlsym mod_handle sym_name])
  else (r.1, r.2, [.dlsym mod_handle name])

/-- Function `sc_module_get_address`, module.c lines 69-97. -/
def sc_module_get_address (ctx : Option sc_context) (host : Host) (mod_handle : Ptr)
    (sym_name : Option CStr) : Except Fault (Outcome Host) :=
  match ctx with
  | none => .error .assertion_failed
  | some c =>
    if mod_handle = 0 then .ok ⟨SC_ERROR_UNKNOWN, none, host, [], []⟩
    else
      match sym_name with
      | none => .ok ⟨SC_ERROR_UNKNOWN, none, host, [], []⟩
      | some n =>
        match bufString (decoratedBuffer n) with
        | none => .error .unterminated_name
        | some name =>
          let r := lookupBoth host mod_handle name n
          let e := r.2.1.dlerror
          match e.1 with
          | some error =>
            .ok ⟨SC_ERROR_UNKNOWN, none, e.2,
              if c.debug then [⟨"sc_module_get_address: %s\n", some error⟩] else [],
              r.2.2 ++ [.dlerror]⟩
          | none => .ok ⟨SC_SUCCESS, some r.1, e.2, [], r.2.2 ++ [.dlerror]⟩

end Posix

/-! ## Variant `_WIN32` -/

namespace Win32

/-- Function `sc_module_open`, module.c lines 102-121. -/
def sc_module_open (ctx : Option sc_context) (host : WinHost) (filename : Option CStr) :
    Except Fault (Outcome WinHost) :=
  match ctx with
  | none => .error .assertion_failed
  | some c =>
    match filename with
    | none => .ok ⟨SC_ERROR_UNKNOWN, none, host, [], []⟩
    | some f =>
      let r := host.LoadLibrary f
      if r.1 = 0 then
        .ok ⟨SC_ERROR_UNKNOWN, none, r.2,
          if c.debug then [⟨"sc_module_open: unknown error", none⟩] else [],
          [.LoadLibrary f]⟩
      else .ok ⟨SC_SUCCESS, some r.1, r.2, [], [.LoadLibrary f]⟩

/-- Function `sc_module_close`, module.c lines 123-134. The result of `FreeLibrary` is dropped. -/
def sc_module_close (ctx : Option sc_context) (host : WinHost) (mod_handle : Ptr) :
    Except Fault (Outcome WinHost) :=
  match ctx with
  | none => .error .assertion_failed
  | some _ =>
    if mod_handle = 0 then .ok ⟨SC_ERROR_UNKNOWN, none, host, [], []⟩
    else
      let r := host.FreeLibrary mod_handle
      .ok ⟨SC_SUCCESS, none, r.2, [], [.FreeLibrary mod_handle]⟩

/-- Function `sc_module_get_address`, module.c lines 136-156. -/
def sc_module_get_address (ctx : Option sc_context) (host : WinHost) (mod_handle : Ptr)
    (sym_name : Option CStr) : Except Fault (Outcome WinHost) :=
  match ctx with
  | none => .error .assertion_failed
  | some c =>
    if mod_handle = 0 then .ok ⟨SC_ERROR_UNKNOWN, none, host, [], []⟩
    else
      match sym_name with
      | none => .ok ⟨SC_ERROR_UNKNOWN, none, host, [], []⟩
      | some n =>
        let address := host.GetProcAddress mod_handle n
        if address = 0 then
          .ok ⟨SC_ERROR_UNKNOWN, none, host,
            if c.debug then [⟨"sc_module_get_address: unknown error", none⟩] else [],
            [.GetProcAddress mod_handle n]⟩
        else .ok ⟨SC_SUCCESS, some address, host, [], [.GetProcAddress mod_handle n]⟩

end Win32

/-! ## Variant without a native loader -/

namespace Stub

/-- Function `sc_module_open`, module.c lines 160-163. -/
def sc_module_open {σ : Type} (_ctx : Option sc_context) (host : σ)
    (_filename : Option CStr) : Except Fault (Outcome σ) :=
  .ok ⟨SC_ERROR_UNKNOWN, none, host, [], []⟩

/-- Function `sc_module_close`, module.c lines 165-168. -/
def sc_module_close {σ : Type} (_ctx : Option sc_context) (host : σ)
    (_mod_handle : Ptr) : Except Fault (Outcome σ) :=
  .ok ⟨SC_ERROR_UNKNOWN, none, host, [], []⟩

/-- Function `sc_module_get_address`, module.c lines 170-173. -/
def sc_module_get_address {σ : Type} (_ctx : Option sc_context) (host : σ)
    (_mod_handle : Ptr) (_sym_name : Option CStr) : Except Fault (Outcome σ) :=
  .ok ⟨SC_ERROR_UNKNOWN, none, host, [], []⟩

end Stub

/-! ## Sample data used by the concrete evaluations -/

/-- The name `foo`. -/
def name_foo : CStr := [102, 111, 111]

/-- The name `_foo`. -/
def name_ufoo : CStr := [95, 102, 111, 111]

/-- The name `bar`. -/
def name_bar : CStr := [98, 97, 114]

/-- A symbol name of 255 bytes, all `a`. -/
def name_255 : CStr := List.replicate 255 97

/-- A library exporting `foo` only under its plain name. -/
def lib_plain : SymTab := [(name_foo, 7)]

/-- A library exporting `_foo` only. -/
def lib_decorated : SymTab := [(name_ufoo, 7)]

/-- A library exporting `bar` only under its plain name. -/
def lib_bar : SymTab := [(name_bar, 7)]

/-- A library exporting `foo` only under its plain name, with the value `0`. -/
def lib_null : SymTab := [(name_foo, 0)]

/-- POSIX host, handle `1` mapped to `lib_plain`, no error pending. -/
def host_plain : Host := ⟨[], [(1, lib_plain)], none⟩

/-- POSIX host, handle `1` mapped to `lib_decorated`, no error pending. -/
def host_decorated : Host := ⟨[], [(1, lib_decorated)], none⟩

/-- As `host_decorated`, with an error left pending by an earlier host call. -/
def host_decorated_stale : Host := ⟨[], [(1, lib_decorated)], some "stale"⟩

/-- POSIX host whose loader maps a library for the empty file name (the running
program, on common loaders), nothing mapped yet, no error pending. -/
def host_empty_name : Host := ⟨[([], lib_plain)], [], none⟩

/-- POSIX host, handle `1` mapped to `lib_bar`, no error pending. -/
def host_bar : Host := ⟨[], [(1, lib_bar)], none⟩

/-- POSIX host, handle `1` mapped to `lib_null`, no error pending. -/
def host_null : Host := ⟨[], [(1, lib_null)], none⟩

/-- Windows host with nothing mapped. -/
def win_empty : WinHost := ⟨[], []⟩

/-- Windows host, handle `1` mapped to `lib_decorated`. -/
def win_decorated : WinHost := ⟨[], [(1, lib_decorated)]⟩

/-! ## Facts about the string helpers -/

theorem strncpy_length (s : CStr) (k : Nat) : (strncpy s k).length = k := by
  induction k generalizing s with
  | zero => cases s <;> simp [strncpy]
  | succ k ih =>
    cases s with
    | nil => simp [strncpy, ih]
    | cons c cs =>
      by_cases hc : c = 0 <;> simp [strncpy, hc, ih]

theorem strncpy_nil_bufString (k : Nat) : bufString (strncpy [] (k + 1)) = some [] := by
  simp [strncpy, bufString]

/-- A C string shorter than the count is copied whole and NUL-terminated. -/
theorem bufString_strncpy_short (s : CStr) (k : Nat) (hs : IsCStr s) (hk : s.length < k) :
    bufString (strncpy s k) = some s := by
  induction s generalizing k with
  | nil =>
    cases k with
    | zero => simp at hk
    | succ k => simp [strncpy, bufString]
  | cons c cs ih =>
    cases k with
    | zero => simp at hk
    | succ k =>
      have hc : c ≠ 0 := hs c (by simp)
      have hcs : IsCStr cs := fun b hb => hs b (by simp [hb])
      have hlt : cs.length < k := by simpa using hk
      simp [strncpy, bufString, hc, ih k hcs hlt]

/-- A C string of at least `k` bytes is cut to its first `k` bytes. -/
theorem strncpy_long (s : CStr) (k : Nat) (hs : IsCStr s) (hk : k ≤ s.length) :
    strncpy s k = s.take k := by
  induction s generalizing k with
  | nil =>
    cases k with
    | zero => simp [strncpy]
    | succ k => simp at hk
  | cons c cs ih =>
    cases k with
    | zero => simp [strncpy]
    | succ k =>
      have hc : c ≠ 0 := hs c (by simp)
      have hcs : IsCStr cs := fun b hb => hs b (by simp [hb])
      have hle : k ≤ cs.length := by simpa using hk
      simp [strncpy, hc, ih k hcs hle]

theorem bufString_none_of_no_nul (b : List Nat) (hb : ∀ x ∈ b, x ≠ 0) :
    bufString b = none := by
  induction b with
  | nil => simp [bufString]
  | cons x xs ih =>
    have hx : x ≠ 0 := hb x (by simp)
    have hxs : ∀ y ∈ xs, y ≠ 0 := fun y hy => hb y (by simp [hy])
    simp [bufString, hx, ih hxs]

/-- For a name of at most 254 bytes the buffer reads back as `_` followed by
the name. -/
theorem bufString_decoratedBuffer (n : CStr) (hn : IsCStr n) (hlen : n.length ≤ 254) :
    bufString (decoratedBuffer n) = some (0x5f :: n) := by
  have h := bufString_strncpy_short n 255 hn (by omega)
  simp [decoratedBuffer, bufString, h]

/-- For a name of 255 bytes or more the buffer is `_` followed by the first 255
bytes of the name, and holds no NUL at all. -/
theorem decoratedBuffer_long (n : CStr) (hn : IsCStr n) (hlen : 255 ≤ n.length) :
    decoratedBuffer n = 0x5f :: n.take 255 ∧ (∀ x ∈ decoratedBuffer n, x ≠ 0) ∧
      bufString (decoratedBuffer n) = none := by
  have h := strncpy_long n 255 hn hlen
  have hbuf : decoratedBuffer n = 0x5f :: n.take 255 := by simp [decoratedBuffer, h]
  have hno : ∀ x ∈ decoratedBuffer n, x ≠ 0 := by
    intro x hx
    rw [hbuf] at hx
    rcases List.mem_cons.mp hx with h1 | h1
    · omega
    · exact hn x (List.mem_of_mem_take h1)
  exact ⟨hbuf, hno, bufString_none_of_no_nul _ hno⟩

theorem decoratedBuffer_length (n : CStr) : (decoratedBuffer n).length = 256 := by
  simp [decoratedBuffer, strncpy_length]

theorem isCStr_name_255 : IsCStr name_255 := by
  intro b hb
  have : b = 97 := List.eq_of_mem_replicate hb
  omega

theorem name_255_length : name_255.length = 255 := by
  unfold name_255
  rw [List.length_replicate]

/-! ## Facts about the host model -/

theorem Host.dlsym_of_resolve_some (s : Host) (h : Ptr) (name : CStr) (a : Ptr)
    (hr : s.resolve h name = some a) :
    s.dlsym h name = (a, Host.mk s.files s.loaded none) := by
  unfold Host.resolve at hr
  unfold Host.dlsym
  cases hl : s.loaded.lookup h with
  | none => simp [hl] at hr
  | some lib =>
    rw [hl] at hr
    simp only at hr
    simp [hr]

theorem Host.dlsym_of_resolve_none (s : Host) (h : Ptr) (name : CStr)
    (hr : s.resolve h name = none) :
    ∃ e, s.dlsym h name = (0, Host.mk s.files s.loaded (some e)) := by
  unfold Host.resolve at hr
  unfold Host.dlsym
  cases hl : s.loaded.lookup h with
  | none => exact ⟨_, rfl⟩
  | some lib =>
    rw [hl] at hr
    simp only at hr
    simp [hr]

/-- A lookup that yields no address, the name being unresolved or resolved to a
symbol of value null, returns `NULL` and leaves the tables as they were. -/
theorem Host.dlsym_of_no_address (s : Host) (h : Ptr) (name : CStr)
    (hr : s.resolve h name = none ∨ s.resolve h name = some 0) :
    ∃ e, s.dlsym h name = (0, Host.mk s.files s.loaded e) := by
  rcases hr with hr | hr
  · obtain ⟨e, he⟩ := Host.dlsym_of_resolve_none s h name hr
    exact ⟨some e, he⟩
  · exact ⟨none, Host.dlsym_of_resolve_some s h name 0 hr⟩

/-- The error pending on entry has no part in what `dlsym` does. -/
theorem Host.dlsym_err_irrelevant (s : Host) (e : Option String) (h : Ptr) (name : CStr) :
    (Host.mk s.files s.loaded e).dlsym h name = s.dlsym h name := rfl

theorem Host.resolve_err (s : Host) (e : Option String) (h : Ptr) (name : CStr) :
    (Host.mk s.files s.loaded e).resolve h name = s.resolve h name := rfl

theorem Host.eq_of_err_none (s : Host) (he : s.err = none) :
    Host.mk s.files s.loaded none = s := by
  cases s
  simp_all

theorem Host.resolve_none_or_some (s : Host) (h : Ptr) (name : CStr) :
    (s.resolve h name = none ∨ s.resolve h name = some 0) ∨
      ∃ a, s.resolve h name = some a ∧ a ≠ 0 := by
  cases hr : s.resolve h name with
  | none => exact Or.inl (Or.inl rfl)
  | some a =>
    by_cases ha : a = 0
    · subst ha
      exact Or.inl (Or.inr rfl)
    · exact Or.inr ⟨a, rfl, ha⟩

/-! ## What `sc_module_get_address` (POSIX) computes, case by case -/

namespace Posix

/-- The decorated name resolves to a non-null address: one lookup, success. -/
theorem get_address_decorated_found (c : sc_context) (host : Host) (h : Ptr) (n : CStr)
    (a : Ptr) (h0 : h ≠ 0) (hn : IsCStr n) (hlen : n.length ≤ 254)
    (hr : host.resolve h (0x5f :: n) = some a) (ha : a ≠ 0) :
    sc_module_get_address (some c) host h (some n) =
      .ok ⟨SC_SUCCESS, some a, Host.mk host.files host.loaded none, [],
        [.dlsym h (0x5f :: n), .dlerror]⟩ := by
  have hb := bufString_decoratedBuffer n hn hlen
  have hd := Host.dlsym_of_resolve_some host h (0x5f :: n) a hr
  simp only [sc_module_get_address, h0, hb, lookupBoth, hd, ha, if_false, Host.dlerror]
  rfl

/-- The decorated lookup yields no address and the plain name resolves: two
lookups, success with the plain name's address. -/
theorem get_address_plain_found (c : sc_context) (host : Host) (h : Ptr) (n : CStr)
    (b : Ptr) (h0 : h ≠ 0) (hn : IsCStr n) (hlen : n.length ≤ 254)
    (hr : host.resolve h (0x5f :: n) = none ∨ host.resolve h (0x5f :: n) = some 0)
    (hp : host.resolve h n = some b) :
    sc_module_get_address (some c) host h (some n) =
      .ok ⟨SC_SUCCESS, some b, Host.mk host.files host.loaded none, [],
        [.dlsym h (0x5f :: n), .dlsym h n, .dlerror]⟩ := by
  have hb := bufString_decoratedBuffer n hn hlen
  obtain ⟨e, hd⟩ := Host.dlsym_of_no_address host h (0x5f :: n) hr
  have hd2 : (Host.mk host.files host.loaded e).dlsym h n =
      (b, Host.mk host.files host.loaded none) :=
    Host.dlsym_of_resolve_some (Host.mk host.files host.loaded e) h n b hp
  simp only [sc_module_get_address, h0, hb, lookupBoth, hd, hd2, if_true, if_false,
    Host.dlerror]
  rfl

/-- The decorated lookup yields no address and the plain name does not resolve:
two lookups, failure. -/
theorem get_address_not_found (c : sc_context) (host : Host) (h : Ptr) (n : CStr)
    (h0 : h ≠ 0) (hn : IsCStr n) (hlen : n.length ≤ 254)
    (hr : host.resolve h (0x5f :: n) = none ∨ host.resolve h (0x5f :: n) = some 0)
    (hp : host.resolve h n = none) :
    ∃ e, sc_module_get_address (some c) host h (some n) =
      .ok ⟨SC_ERROR_UNKNOWN, none, Host.mk host.files host.loaded none,
        if c.debug then [⟨"sc_module_get_address: %s\n", some e⟩] else [],
        [.dlsym h (0x5f :: n), .dlsym h n, .dlerror]⟩ := by
  have hb := bufString_decoratedBuffer n hn hlen
  obtain ⟨e, hd⟩ := Host.dlsym_of_no_address host h (0x5f :: n) hr
  obtain ⟨e2, hd2⟩ := Host.dlsym_of_resolve_none (Host.mk host.files host.loaded e) h n hp
  have hd3 : (Host.mk host.files host.loaded e).dlsym h n =
      (0, Host.mk host.files host.loaded (some e2)) := hd2
  refine ⟨e2, ?_⟩
  simp only [sc_module_get_address, h0, hb, lookupBoth, hd, hd3, if_true, if_false,
    Host.dlerror]
  rfl

/-- The error pending on entry has no part in what a lookup through a non-null
handle does. -/
theorem get_address_err_irrelevant (ctx : Option sc_context) (host : Host)
    (e : Option String) (h : Ptr) (n : CStr) (h0 : h ≠ 0) :
    sc_module_get_address ctx (Host.mk host.files host.loaded e) h (some n) =
      sc_module_get_address ctx host h (some n) := by
  cases ctx with
  | none => rfl
  | some c =>
    simp only [sc_module_get_address, h0, if_false]
    rfl

end Posix

/-- A symbol name of 255 bytes or more: the host is handed a name buffer
without terminator and the call has no defined result. -/
theorem Posix.get_address_long_name (c : sc_context) (host : Host) (h : Ptr) (n : CStr)
    (h0 : h ≠ 0) (hn : IsCStr n) (hlen : 255 ≤ n.length) :
    Posix.sc_module_get_address (some c) host h (some n) = .error .unterminated_name := by
  have hb := (decoratedBuffer_long n hn hlen).2.2
  simp only [Posix.sc_module_get_address, h0, if_false, hb]

/-! ## The symbol lookup of the POSIX variant -/

/-- C1: symbol fallback of the POSIX variant. For every host state with no
error pending, every open handle, and every name of at most 254 bytes that the
host resolves to a non-null address while it does not resolve the name with a
leading underscore, `sc_module_get_address` returns `SC_SUCCESS` and stores
that address; it gets there by the second lookup, and the host state is left as
it was. -/
theorem fallback_resolves_plain_only_symbol (c : sc_context) (host : Host) (h : Ptr)
    (n : CStr) (a : Ptr) (hopen : host.IsOpen h) (hn : IsCStr n) (hlen : n.length ≤ 254)
    (he : host.err = none) (hp : host.resolve h n = some a) (ha : a ≠ 0)
    (hd : host.resolve h (0x5f :: n) = none) :
    ∃ o, Posix.sc_module_get_address (some c) host h (some n) = .ok o ∧
      o.rc = SC_SUCCESS ∧ o.out = some a ∧
      o.calls = [.dlsym h (0x5f :: n), .dlsym h n, .dlerror] ∧ o.host = host := by
  have _ := ha
  have hcall := Posix.get_address_plain_found c host h n a hopen.1 hn hlen (Or.inl hd) hp
  exact ⟨_, hcall, rfl, rfl, rfl, Host.eq_of_err_none host he⟩

/-- C1 at a concrete input: handle `1` of a library exporting only `foo`, at the
address `7`. -/
theorem fallback_resolves_plain_only_symbol_witness :
    host_plain.IsOpen 1 ∧ IsCStr name_foo ∧ name_foo.length ≤ 254 ∧ host_plain.err = none ∧
    host_plain.resolve 1 name_foo = some 7 ∧ (7 : Ptr) ≠ 0 ∧
    host_plain.resolve 1 (0x5f :: name_foo) = none ∧
    ∃ o, Posix.sc_module_get_address (some ⟨true⟩) host_plain 1 (some name_foo) = .ok o ∧
      o.rc = SC_SUCCESS ∧ o.out = some 7 ∧
      o.calls = [.dlsym 1 (0x5f :: name_foo), .dlsym 1 name_foo, .dlerror] ∧
      o.host = host_plain :=
  ⟨by decide, by decide, by decide, rfl, rfl, by decide, rfl,
    fallback_resolves_plain_only_symbol ⟨true⟩ host_plain 1 name_foo 7 (by decide)
      (by decide) (by decide) rfl rfl (by decide) rfl⟩

/-- C4: a stale host error is not attributed to a symbol lookup. For two host
states that differ at most in the pending-error slot, every handle open in
them and every name of at most 254 bytes, `sc_module_get_address` returns the
same outcome (return code, stored address, diagnostics, host calls, host state
afterwards) for both. In particular, whatever is pending on entry: if the name
with a leading underscore resolves to a non-null address the call returns
`SC_SUCCESS` with that address, and if the underscore lookup yields no address
while the plain name resolves to a non-null address the call returns
`SC_SUCCESS` with the plain name's address. -/
theorem lookup_ignores_pending_error (c : sc_context) (host1 host2 : Host) (h : Ptr)
    (n : CStr) (hf : host1.files = host2.files) (hl : host1.loaded = host2.loaded)
    (hopen : host1.IsOpen h) (hn : IsCStr n) (hlen : n.length ≤ 254) :
    ∃ o, Posix.sc_module_get_address (some c) host1 h (some n) = .ok o ∧
      Posix.sc_module_get_address (some c) host2 h (some n) = .ok o ∧
      (∀ a, host2.resolve h (0x5f :: n) = some a → a ≠ 0 →
        o.rc = SC_SUCCESS ∧ o.out = some a) ∧
      (∀ b, (host2.resolve h (0x5f :: n) = none ∨ host2.resolve h (0x5f :: n) = some 0) →
        host2.resolve h n = some b → b ≠ 0 → o.rc = SC_SUCCESS ∧ o.out = some b) := by
  have h0 := hopen.1
  have hsame : Posix.sc_module_get_address (some c) host1 h (some n) =
      Posix.sc_module_get_address (some c) host2 h (some n) := by
    have e1 := Posix.get_address_err_irrelevant (some c) host2 host1.err h n h0
    rw [← hf, ← hl] at e1
    exact e1
  rw [hsame]
  rcases Host.resolve_none_or_some host2 h (0x5f :: n) with hr | ⟨a, hr, ha⟩
  · cases hp : host2.resolve h n with
    | none =>
      obtain ⟨e, hcall⟩ := Posix.get_address_not_found c host2 h n h0 hn hlen hr hp
      refine ⟨_, hcall, hcall, ?_, ?_⟩
      · intro a hx ha
        rcases hr with hr | hr
        · rw [hr] at hx
          simp at hx
        · rw [hr] at hx
          exact absurd (Option.some.inj hx).symm ha
      · intro b _ hx
        simp at hx
    | some b =>
      have hcall := Posix.get_address_plain_found c host2 h n b h0 hn hlen hr hp
      refine ⟨_, hcall, hcall, ?_, ?_⟩
      · intro a hx ha
        rcases hr with hr | hr
        · rw [hr] at hx
          simp at hx
        · rw [hr] at hx
          exact absurd (Option.some.inj hx).symm ha
      · intro b2 _ hx _
        have hb : b = b2 := Option.some.inj hx
        subst hb
        exact ⟨rfl, rfl⟩
  · have hcall := Posix.get_address_decorated_found c host2 h n a h0 hn hlen hr ha
    refine ⟨_, hcall, hcall, ?_, ?_⟩
    · intro a2 hx _
      rw [hr] at hx
      have hb : a = a2 := Option.some.inj hx
      subst hb
      exact ⟨rfl, rfl⟩
    · intro b hx _ _
      rcases hx with hx | hx
      · rw [hr] at hx
        simp at hx
      · rw [hr] at hx
        exact absurd (Option.some.inj hx) ha

/-- C4 at a concrete input: two host states that resolve `_foo` to `7` for
handle `1`, one with no error pending, one with a stale error pending. -/
theorem lookup_ignores_pending_error_witness :
    host_decorated.files = host_decorated_stale.files ∧
    host_decorated.loaded = host_decorated_stale.loaded ∧
    host_decorated.err ≠ host_decorated_stale.err ∧
    ∃ o, Posix.sc_module_get_address (some ⟨true⟩) host_decorated 1 (some name_foo) = .ok o ∧
      Posix.sc_module_get_address (some ⟨true⟩) host_decorated_stale 1 (some name_foo)
        = .ok o ∧
      o.rc = SC_SUCCESS ∧ o.out = some 7 := by
  obtain ⟨o, h1, h2, hA, _⟩ :=
    lookup_ignores_pending_error ⟨true⟩ host_decorated host_decorated_stale 1 name_foo
      rfl rfl (by decide) (by decide) (by decide)
  exact ⟨rfl, rfl, by decide, o, h1, h2, hA 7 rfl (by decide)⟩

/-- C6: `sc_module_close` of the Windows variant does not report an unload
failure. For the non-null handle `1`, which names no mapped module,
`FreeLibrary` returns `FALSE`, and the call returns `SC_SUCCESS` without a
diagnostic. -/
theorem win_close_ignores_unload_failure :
    (win_empty.FreeLibrary 1).1 = false ∧
      ∃ o, Win32.sc_module_close (some ⟨true⟩) win_empty 1 = .ok o ∧
        o.rc = SC_SUCCESS ∧ o.calls = [.FreeLibrary 1] ∧ o.log = [] :=
  ⟨rfl, _, rfl, rfl, rfl, rfl⟩

/-! ## File names accepted by `sc_module_open` -/

/-- C2, the claim as stated fails: the empty file name is not rejected. On a
host whose loader maps a library for the empty name, `sc_module_open` (POSIX)
asks the loader for it, returns `SC_SUCCESS` and stores the new handle `1`. -/
theorem open_empty_name_is_loaded :
    ∃ o, Posix.sc_module_open (some ⟨false⟩) host_empty_name (some []) = .ok o ∧
      o.rc = SC_SUCCESS ∧ o.out = some 1 ∧ o.calls = [.dlopen [], .dlerror] ∧
      o.host.loaded = [(1, lib_plain)] :=
  ⟨_, rfl, rfl, rfl, rfl, rfl⟩

/-- C2 amended: with a null file name `sc_module_open` returns
`SC_ERROR_UNKNOWN`, stores nothing, makes no host call and leaves the host
state as it was, in the POSIX and in the Windows variant. The empty file name
is handed to the host loader like any other name (`dlopen` followed by
`dlerror`, or `LoadLibrary`): when the loader cannot map it the call returns
`SC_ERROR_UNKNOWN`, stores nothing and maps nothing; when the loader maps it
(POSIX: and no error is pending on entry) the call returns `SC_SUCCESS` and
stores the new handle. -/
theorem open_null_rejected_empty_passed_to_host (c : sc_context) (host : Host)
    (whost : WinHost) :
    (∃ o, Posix.sc_module_open (some c) host none = .ok o ∧ o.rc = SC_ERROR_UNKNOWN ∧
        o.out = none ∧ o.calls = [] ∧ o.host = host) ∧
    (∃ o, Win32.sc_module_open (some c) whost none = .ok o ∧ o.rc = SC_ERROR_UNKNOWN ∧
        o.out = none ∧ o.calls = [] ∧ o.host = whost) ∧
    (∃ o, Posix.sc_module_open (some c) host (some []) = .ok o ∧
        o.calls = [.dlopen [], .dlerror] ∧
        (host.files.lookup ([] : CStr) = none →
          o.rc = SC_ERROR_UNKNOWN ∧ o.out = none ∧ o.host.loaded = host.loaded) ∧
        (host.files.lookup ([] : CStr) ≠ none → host.err = none →
          o.rc = SC_SUCCESS ∧ o.out = some (freshHandle host.loaded))) ∧
    (∃ o, Win32.sc_module_open (some c) whost (some []) = .ok o ∧
        o.calls = [.LoadLibrary []] ∧
        (whost.files.lookup ([] : CStr) = none →
          o.rc = SC_ERROR_UNKNOWN ∧ o.out = none ∧ o.host = whost) ∧
        (whost.files.lookup ([] : CStr) ≠ none →
          o.rc = SC_SUCCESS ∧ o.out = some (freshHandle whost.loaded))) := by
  refine ⟨⟨_, rfl, rfl, rfl, rfl, rfl⟩, ⟨_, rfl, rfl, rfl, rfl, rfl⟩, ?_, ?_⟩
  · cases hl : host.files.lookup ([] : CStr) with
    | none =>
      have hcall : Posix.sc_module_open (some c) host (some []) =
          .ok ⟨SC_ERROR_UNKNOWN, none, Host.mk host.files host.loaded none,
            if c.debug then
              [⟨"sc_module_open: %s\n", some "cannot open shared object file"⟩]
            else [],
            [.dlopen [], .dlerror]⟩ := by
        simp only [Posix.sc_module_open, Host.dlopen, hl, Host.dlerror]
      exact ⟨_, hcall, rfl, fun _ => ⟨rfl, rfl, rfl⟩, fun hne => absurd rfl hne⟩
    | some lib =>
      have hcall : Posix.sc_module_open (some c) host (some []) =
          .ok ⟨SC_SUCCESS, some (freshHandle host.loaded),
            Host.mk host.files ((freshHandle host.loaded, lib) :: host.loaded) none, [],
            [.dlopen [], .dlerror]⟩ := by
        simp only [Posix.sc_module_open, Host.dlopen, hl, Host.dlerror]
      exact ⟨_, hcall, rfl, fun hx => by simp at hx, fun _ _ => ⟨rfl, rfl⟩⟩
  · have hfresh : freshHandle whost.loaded ≠ 0 := Nat.succ_ne_zero _
    cases hl : whost.files.lookup ([] : CStr) with
    | none =>
      have hcall : Win32.sc_module_open (some c) whost (some []) =
          .ok ⟨SC_ERROR_UNKNOWN, none, whost,
            if c.debug then [⟨"sc_module_open: unknown error", none⟩] else [],
            [.LoadLibrary []]⟩ := by
        simp only [Win32.sc_module_open, WinHost.LoadLibrary, hl, if_true]
      exact ⟨_, hcall, rfl, fun _ => ⟨rfl, rfl, rfl⟩, fun hne => absurd rfl hne⟩
    | some lib =>
      have hcall : Win32.sc_module_open (some c) whost (some []) =
          .ok ⟨SC_SUCCESS, some (freshHandle whost.loaded),
            WinHost.mk whost.files ((freshHandle whost.loaded, lib) :: whost.loaded), [],
            [.LoadLibrary []]⟩ := by
        simp only [Win32.sc_module_open, WinHost.LoadLibrary, hl, hfresh, if_false]
      exact ⟨_, hcall, rfl, fun hx => by simp at hx, fun _ => ⟨rfl, rfl⟩⟩

/-- C2 amended, at a concrete input: the POSIX host that maps a library for
the empty name and has no error pending. -/
theorem open_null_rejected_empty_passed_to_host_witness :
    ∃ o, Posix.sc_module_open (some ⟨false⟩) host_empty_name (some []) = .ok o ∧
      o.rc = SC_SUCCESS ∧ o.out = some (freshHandle host_empty_name.loaded) := by
  obtain ⟨o, ho, _, _, h2⟩ :=
    (open_null_rejected_empty_passed_to_host ⟨false⟩ host_empty_name win_empty).2.2.1
  exact ⟨o, ho, h2 (by decide) rfl⟩

/-! ## Not found, and the address stored on success -/

theorem WinHost.getProcAddress_of_resolve (s : WinHost) (h : Ptr) (name : CStr) :
    s.GetProcAddress h name = (s.resolve h name).getD 0 := by
  unfold WinHost.GetProcAddress WinHost.resolve
  cases s.loaded.lookup h with
  | none => rfl
  | some lib =>
    show (match lib.lookup name with | some a => a | none => 0) = (lib.lookup name).getD 0
    cases lib.lookup name <;> rfl

/-- What `sc_module_get_address` (Windows) computes for a non-null handle. -/
theorem Win32.get_address_eq (c : sc_context) (whost : WinHost) (h : Ptr) (m : CStr)
    (h0 : h ≠ 0) :
    Win32.sc_module_get_address (some c) whost h (some m) =
      if whost.GetProcAddress h m = 0 then
        .ok ⟨SC_ERROR_UNKNOWN, none, whost,
          if c.debug then [⟨"sc_module_get_address: unknown error", none⟩] else [],
          [.GetProcAddress h m]⟩
      else .ok ⟨SC_SUCCESS, some (whost.GetProcAddress h m), whost, [],
        [.GetProcAddress h m]⟩ := by
  simp only [Win32.sc_module_get_address, h0, if_false]

/-- C5, the claim as stated fails: success can store a null address. Handle
`1` is open on a library that exports `foo` with the value `0` and no `_foo`;
the POSIX lookup of `foo` finds no `_foo`, then finds `foo`, no error is
pending, and the call returns `SC_SUCCESS` and stores the null address. -/
theorem success_with_null_address :
    host_null.IsOpen 1 ∧ host_null.resolve 1 name_ufoo = none ∧
      host_null.resolve 1 name_foo = some 0 ∧
      ∃ o, Posix.sc_module_get_address (some ⟨false⟩) host_null 1 (some name_foo) = .ok o ∧
        o.rc = SC_SUCCESS ∧ o.out = some 0 :=
  ⟨by decide, rfl, rfl, _, rfl, rfl, rfl⟩

/-- C5 amended. POSIX variant, open handle, name of at most 254 bytes: the call
returns; if the host resolves neither the name with a leading underscore nor
the name itself, it returns `SC_ERROR_UNKNOWN` and stores nothing; whenever it
returns `SC_SUCCESS` an address is stored, and that address is null only when
the plain name resolves to a symbol whose value is null. Windows variant, open
handle, any name: the call returns; if the host does not resolve the name it
returns `SC_ERROR_UNKNOWN` and stores nothing; whenever it returns `SC_SUCCESS`
the stored address is non-null. -/
theorem not_found_fails_and_success_is_null_only_for_null_symbol (c : sc_context)
    (host : Host) (whost : WinHost) (h hw : Ptr) (n m : CStr) (hopen : host.IsOpen h)
    (hwopen : whost.IsOpen hw) (hn : IsCStr n) (hlen : n.length ≤ 254) :
    (∃ o, Posix.sc_module_get_address (some c) host h (some n) = .ok o ∧
      (host.resolve h (0x5f :: n) = none → host.resolve h n = none →
        o.rc = SC_ERROR_UNKNOWN ∧ o.out = none) ∧
      (o.rc = SC_SUCCESS → ∃ a, o.out = some a ∧ (a = 0 → host.resolve h n = some 0))) ∧
    (∃ o, Win32.sc_module_get_address (some c) whost hw (some m) = .ok o ∧
      (whost.resolve hw m = none → o.rc = SC_ERROR_UNKNOWN ∧ o.out = none) ∧
      (o.rc = SC_SUCCESS → ∃ a, o.out = some a ∧ a ≠ 0)) := by
  have h0 := hopen.1
  constructor
  · rcases Host.resolve_none_or_some host h (0x5f :: n) with hr | ⟨a, hr, ha⟩
    · cases hp : host.resolve h n with
      | none =>
        obtain ⟨e, hcall⟩ := Posix.get_address_not_found c host h n h0 hn hlen hr hp
        exact ⟨_, hcall, fun _ _ => ⟨rfl, rfl⟩, fun hx => by simp at hx⟩
      | some b =>
        have hcall := Posix.get_address_plain_found c host h n b h0 hn hlen hr hp
        refine ⟨_, hcall, fun _ hx => by simp at hx, fun _ => ⟨b, rfl, ?_⟩⟩
        intro hb
        rw [hb]
    · have hcall := Posix.get_address_decorated_found c host h n a h0 hn hlen hr ha
      exact ⟨_, hcall, fun hx => by simp [hr] at hx,
        fun _ => ⟨a, rfl, fun hz => absurd hz ha⟩⟩
  · have hcall := Win32.get_address_eq c whost hw m hwopen.1
    by_cases hz : whost.GetProcAddress hw m = 0
    · rw [if_pos hz] at hcall
      exact ⟨_, hcall, fun _ => ⟨rfl, rfl⟩, fun hx => by simp at hx⟩
    · rw [if_neg hz] at hcall
      refine ⟨_, hcall, ?_, fun _ => ⟨_, rfl, hz⟩⟩
      intro hx
      rw [WinHost.getProcAddress_of_resolve, hx] at hz
      simp at hz

/-- C5 amended, at concrete inputs, handle `1` throughout. POSIX: a library
without `foo` and `_foo` gives the error code, a library exporting `foo` at `7`
gives success with a non-null address. Windows: a library without `foo` gives
the error code, `_foo` exported at `7` gives success with a non-null address. -/
theorem not_found_fails_and_success_is_null_only_for_null_symbol_witness :
    host_bar.IsOpen 1 ∧ host_plain.IsOpen 1 ∧ win_decorated.IsOpen 1 ∧ IsCStr name_foo ∧
    name_foo.length ≤ 254 ∧
    (∃ o, Posix.sc_module_get_address (some ⟨false⟩) host_bar 1 (some name_foo) = .ok o ∧
      o.rc = SC_ERROR_UNKNOWN ∧ o.out = none) ∧
    (∃ o a, Posix.sc_module_get_address (some ⟨false⟩) host_plain 1 (some name_foo) = .ok o ∧
      o.rc = SC_SUCCESS ∧ o.out = some a ∧ a ≠ 0) ∧
    (∃ o, Win32.sc_module_get_address (some ⟨false⟩) win_decorated 1 (some name_foo) = .ok o ∧
      o.rc = SC_ERROR_UNKNOWN ∧ o.out = none) ∧
    (∃ o a, Win32.sc_module_get_address (some ⟨false⟩) win_decorated 1 (some name_ufoo)
        = .ok o ∧ o.rc = SC_SUCCESS ∧ o.out = some a ∧ a ≠ 0) := by
  obtain ⟨⟨o1, h1, hA1, _⟩, ⟨o2, h2, hA2, _⟩⟩ :=
    not_found_fails_and_success_is_null_only_for_null_symbol ⟨false⟩ host_bar win_decorated
      1 1 name_foo name_foo (by decide) (by decide) (by decide) (by decide)
  obtain ⟨⟨o3, h3, _, hB3⟩, ⟨o4, h4, _, hB4⟩⟩ :=
    not_found_fails_and_success_is_null_only_for_null_symbol ⟨false⟩ host_plain win_decorated
      1 1 name_foo name_ufoo (by decide) (by decide) (by decide) (by decide)
  have e3 : Posix.sc_module_get_address (some ⟨false⟩) host_plain 1 (some name_foo) =
      .ok ⟨SC_SUCCESS, some 7, host_plain, [],
        [.dlsym 1 name_ufoo, .dlsym 1 name_foo, .dlerror]⟩ := rfl
  have e4 : Win32.sc_module_get_address (some ⟨false⟩) win_decorated 1 (some name_ufoo) =
      .ok ⟨SC_SUCCESS, some 7, win_decorated, [], [.GetProcAddress 1 name_ufoo]⟩ := rfl
  have r3 : o3.rc = SC_SUCCESS := by
    rw [e3] at h3
    cases h3
    rfl
  have r4 : o4.rc = SC_SUCCESS := by
    rw [e4] at h4
    cases h4
    rfl
  obtain ⟨a3, ha3, hz3⟩ := hB3 r3
  obtain ⟨a4, ha4, hz4⟩ := hB4 r4
  have hn3 : a3 ≠ 0 := by
    intro hz
    have hx := hz3 hz
    revert hx
    decide
  exact ⟨by decide, by decide, by decide, by decide, by decide,
    ⟨o1, h1, hA1 rfl rfl⟩, ⟨o3, a3, h3, r3, ha3, hn3⟩, ⟨o2, h2, hA2 rfl⟩,
    ⟨o4, a4, h4, r4, ha4, hz4⟩⟩

/-! ## Order of the lookups -/

/-- C10, the claim as stated fails for the Windows variant: the decorated name
is never looked up. Handle `1` resolves `_foo` to the address `7`; the lookup of
`foo` makes the single host call `GetProcAddress(1, foo)` and returns
`SC_ERROR_UNKNOWN` with nothing stored. -/
theorem win_lookup_skips_decorated_name :
    win_decorated.resolve 1 name_ufoo = some 7 ∧
      ∃ o, Win32.sc_module_get_address (some ⟨false⟩) win_decorated 1 (some name_foo)
          = .ok o ∧
        o.rc = SC_ERROR_UNKNOWN ∧ o.out = none ∧ o.calls = [.GetProcAddress 1 name_foo] :=
  ⟨rfl, _, rfl, rfl, rfl, rfl⟩

theorem cons_ne_self (n : CStr) : n ≠ 0x5f :: n := by
  intro hx
  have hl := congrArg List.length hx
  simp at hl

/-- C10 amended. POSIX variant, non-null handle, name of at most 254 bytes, no
error pending on entry: the first host call is the lookup of `_` followed by
the name; if that name resolves to a non-null address the call returns
`SC_SUCCESS` with that address, its host calls are that lookup and `dlerror`,
and the plain name is not looked up; the plain name is looked up exactly when
the decorated lookup yields the null address. Windows variant, non-null handle:
the only host call is the lookup of the plain name. -/
theorem lookup_order (c : sc_context) (host : Host) (whost : WinHost) (h : Ptr) (n : CStr)
    (h0 : h ≠ 0) (hn : IsCStr n) (hlen : n.length ≤ 254) (he : host.err = none) :
    (∃ o, Posix.sc_module_get_address (some c) host h (some n) = .ok o ∧
      o.calls.head? = some (.dlsym h (0x5f :: n)) ∧
      (∀ a, host.resolve h (0x5f :: n) = some a → a ≠ 0 →
        o.rc = SC_SUCCESS ∧ o.out = some a ∧
        o.calls = [.dlsym h (0x5f :: n), .dlerror] ∧ HostCall.dlsym h n ∉ o.calls) ∧
      (HostCall.dlsym h n ∈ o.calls ↔ (host.dlsym h (0x5f :: n)).1 = 0)) ∧
    (∃ o, Win32.sc_module_get_address (some c) whost h (some n) = .ok o ∧
      o.calls = [.GetProcAddress h n]) := by
  have hne := cons_ne_self n
  have _ := he
  constructor
  · rcases Host.resolve_none_or_some host h (0x5f :: n) with hr | ⟨a, hr, ha⟩
    · obtain ⟨e, hd⟩ := Host.dlsym_of_no_address host h (0x5f :: n) hr
      have hnot : ∀ a, host.resolve h (0x5f :: n) = some a → a ≠ 0 → False := by
        intro a hx ha
        rcases hr with hr | hr
        · rw [hr] at hx
          simp at hx
        · rw [hr] at hx
          exact ha (Option.some.inj hx).symm
      cases hp : host.resolve h n with
      | none =>
        obtain ⟨e2, hcall⟩ := Posix.get_address_not_found c host h n h0 hn hlen hr hp
        refine ⟨_, hcall, rfl, fun a hx ha => (hnot a hx ha).elim, ?_⟩
        simp [hd]
      | some b =>
        have hcall := Posix.get_address_plain_found c host h n b h0 hn hlen hr hp
        refine ⟨_, hcall, rfl, fun a hx ha => (hnot a hx ha).elim, ?_⟩
        simp [hd]
    · have hd := Host.dlsym_of_resolve_some host h (0x5f :: n) a hr
      have hcall := Posix.get_address_decorated_found c host h n a h0 hn hlen hr ha
      refine ⟨_, hcall, rfl, fun a2 hx _ => ?_, ?_⟩
      · have hx2 : a = a2 := by
          rw [hr] at hx
          exact Option.some.inj hx
        subst hx2
        refine ⟨rfl, rfl, rfl, ?_⟩
        simp [hne]
      · simp [hd, ha, hne]
  · have hcall := Win32.get_address_eq c whost h n h0
    by_cases hz : whost.GetProcAddress h n = 0
    · rw [if_pos hz] at hcall
      exact ⟨_, hcall, rfl⟩
    · rw [if_neg hz] at hcall
      exact ⟨_, hcall, rfl⟩

/-- C10 amended, at a concrete input: handle `1`, the name `foo`, hosts that
export only `_foo`. -/
theorem lookup_order_witness :
    (1 : Ptr) ≠ 0 ∧ IsCStr name_foo ∧ name_foo.length ≤ 254 ∧ host_decorated.err = none ∧
    (∃ o, Posix.sc_module_get_address (some ⟨false⟩) host_decorated 1 (some name_foo) = .ok o ∧
      o.calls.head? = some (.dlsym 1 (0x5f :: name_foo)) ∧
      (∀ a, host_decorated.resolve 1 (0x5f :: name_foo) = some a → a ≠ 0 →
        o.rc = SC_SUCCESS ∧ o.out = some a ∧
        o.calls = [.dlsym 1 (0x5f :: name_foo), .dlerror] ∧
        HostCall.dlsym 1 name_foo ∉ o.calls) ∧
      (HostCall.dlsym 1 name_foo ∈ o.calls ↔
        (host_decorated.dlsym 1 (0x5f :: name_foo)).1 = 0)) ∧
    (∃ o, Win32.sc_module_get_address (some ⟨false⟩) win_decorated 1 (some name_foo) = .ok o ∧
      o.calls = [.GetProcAddress 1 name_foo]) :=
  ⟨by decide, by decide, by decide, rfl,
    lookup_order ⟨false⟩ host_decorated win_decorated 1 name_foo (by decide) (by decide)
      (by decide) rfl⟩

/-! ## The name buffer, and the variant without a loader -/

/-- C7: the claim that the 256-byte buffer handed to the first `dlsym` always
holds a NUL-terminated string fails for a symbol name of 255 bytes: the buffer
is `_` followed by all 255 bytes of the name, it is 256 bytes long, none of its
bytes is NUL, and reading it as a C string runs past its end. -/
theorem decoratedBuffer_255_unterminated :
    decoratedBuffer name_255 = 0x5f :: List.replicate 255 97 ∧
      (decoratedBuffer name_255).length = 256 ∧
      (∀ x ∈ decoratedBuffer name_255, x ≠ 0) ∧
      bufString (decoratedBuffer name_255) = none := by
  have hlen : 255 ≤ name_255.length := le_of_eq name_255_length.symm
  obtain ⟨h1, h2, h3⟩ := decoratedBuffer_long name_255 isCStr_name_255 hlen
  refine ⟨?_, decoratedBuffer_length _, h2, h3⟩
  rw [h1]
  unfold name_255
  rw [List.take_of_length_le (by rw [List.length_replicate])]

/-- C9: in the variant without a native loader each of the three operations
returns, for every context, host state, handle, file name and symbol name (the
null ones included), the code `SC_ERROR_UNKNOWN`, which is not `SC_SUCCESS`,
stores nothing through its out-parameter, makes no host call, emits no
diagnostic and leaves the host state as it was. -/
theorem stub_operations_always_fail (σ : Type) (ctx : Option sc_context) (host : σ)
    (mod_handle : Ptr) (filename sym_name : Option CStr) :
    (∃ o, Stub.sc_module_open ctx host filename = .ok o ∧ o.rc = SC_ERROR_UNKNOWN ∧
        o.rc ≠ SC_SUCCESS ∧ o.out = none ∧ o.calls = [] ∧ o.log = [] ∧ o.host = host) ∧
    (∃ o, Stub.sc_module_close ctx host mod_handle = .ok o ∧ o.rc = SC_ERROR_UNKNOWN ∧
        o.rc ≠ SC_SUCCESS ∧ o.out = none ∧ o.calls = [] ∧ o.log = [] ∧ o.host = host) ∧
    (∃ o, Stub.sc_module_get_address ctx host mod_handle sym_name = .ok o ∧
        o.rc = SC_ERROR_UNKNOWN ∧ o.rc ≠ SC_SUCCESS ∧ o.out = none ∧ o.calls = [] ∧
        o.log = [] ∧ o.host = host) := by
  refine ⟨⟨_, rfl, rfl, ?_, rfl, rfl, rfl, rfl⟩, ⟨_, rfl, rfl, ?_, rfl, rfl, rfl, rfl⟩,
    ⟨_, rfl, rfl, ?_, rfl, rfl, rfl, rfl⟩⟩ <;> simp

end OpenSC
